import Mathlib

/-!
# Verification of the takeoff PDF extraction-and-cache subsystem

Shallow embedding of `src/takeoff/utils.py` and `src/takeoff/pdf.py`
(the digest service, page extractor, asset codec, and cache store) and
proofs settling the frozen claims about them.

Modelling conventions:

* File bytes are `List Nat` (each entry one byte).
* Python floats are modelled as exact rationals `ℚ`; all float values the
  program manipulates (page dimensions, zoom factors, bounding boxes) are
  produced and consumed without float rounding in any claim-relevant way.
* The filesystem is an explicit state: a list of existing directories and
  an association list from path strings to file contents.
* `json.dump`/`json.load` (Python standard library) are treated as a
  faithful pair: a record file stores the unstructured record itself
  (`FData.record`), and `json.load` on arbitrary bytes is a decode error.
* External pymupdf values (`fitz.Pixmap`, the `page.get_text("dict")`
  content tree) are modelled by their observable content; `pix.digest.hex()`
  is an explicit function parameter `digestFn : List Nat → String`, since
  its implementation (an MD5 of the samples) lives outside the repository.
* Python exceptions are modelled by the `PyError` inductive, one
  constructor per exception class the embedded code can raise.
-/

namespace Takeoff

/-! ## `utils.get_sha256sum` and its SHA-256 backend

`hashlib.sha256` is the Python standard library; its documented semantics
is that feeding chunks to `update` and calling `hexdigest` returns the
SHA-256 hex digest of the concatenation of the chunks.  We implement
SHA-256 (FIPS 180-4) concretely so the digest is an executable function
of the byte sequence, and model the hasher state as the accumulated
bytes fed to `update` so far. -/

/-- 32-bit truncation. -/
def w32 (n : Nat) : Nat := n % 4294967296

/-- Right rotation of a 32-bit word. -/
def rotr (n x : Nat) : Nat := w32 ((x >>> n) ||| (x <<< (32 - n)))

/-- Bounded binary search for the integer cube root (`fuel` recursion;
invariant: `lo ^ 3 ≤ n < hi ^ 3`). -/
def cbrtGo (n : Nat) : Nat → Nat → Nat → Nat
  | 0, lo, _ => lo
  | fuel + 1, lo, hi =>
    if hi ≤ lo + 1 then lo
    else
      let m := (lo + hi) / 2
      if m * m * m ≤ n then cbrtGo n fuel m hi else cbrtGo n fuel lo m

/-- Integer cube root. -/
def cbrt (n : Nat) : Nat := cbrtGo n 200 0 (n + 1)

/-- The first 64 primes, from which the SHA-256 constants derive. -/
def primes64 : List Nat :=
  [2, 3, 5, 7, 11, 13, 17, 19, 23, 29, 31, 37, 41, 43, 47, 53,
   59, 61, 67, 71, 73, 79, 83, 89, 97, 101, 103, 107, 109, 113, 127, 131,
   137, 139, 149, 151, 157, 163, 167, 173, 179, 181, 191, 193, 197, 199, 211, 223,
   227, 229, 233, 239, 241, 251, 257, 263, 269, 271, 277, 281, 283, 293, 307, 311]

/-- SHA-256 round constants: fractional parts of cube roots of the first
64 primes, as 32-bit words. -/
def sha256K : List Nat := primes64.map (fun p => cbrt (p <<< 96) &&& 4294967295)

/-- SHA-256 initial hash value: fractional parts of square roots of the
first 8 primes, as 32-bit words. -/
def sha256H0 : List Nat :=
  (primes64.take 8).map (fun p => Nat.sqrt (p <<< 64) &&& 4294967295)

def shaCh (x y z : Nat) : Nat := (x &&& y) ^^^ ((x ^^^ 4294967295) &&& z)

def shaMaj (x y z : Nat) : Nat := (x &&& y) ^^^ (x &&& z) ^^^ (y &&& z)

def bigSigma0 (x : Nat) : Nat := rotr 2 x ^^^ rotr 13 x ^^^ rotr 22 x

def bigSigma1 (x : Nat) : Nat := rotr 6 x ^^^ rotr 11 x ^^^ rotr 25 x

def smallSigma0 (x : Nat) : Nat := rotr 7 x ^^^ rotr 18 x ^^^ (x >>> 3)

def smallSigma1 (x : Nat) : Nat := rotr 17 x ^^^ rotr 19 x ^^^ (x >>> 10)

/-- The eight 32-bit working variables of the SHA-256 compression function. -/
structure Hash8 where
  a : Nat
  b : Nat
  c : Nat
  d : Nat
  e : Nat
  f : Nat
  g : Nat
  h : Nat
deriving DecidableEq, Repr

/-- One SHA-256 compression round. -/
def shaRound (s : Hash8) (kw : Nat × Nat) : Hash8 :=
  let t1 := w32 (s.h + bigSigma1 s.e + shaCh s.e s.f s.g + kw.1 + kw.2)
  let t2 := w32 (bigSigma0 s.a + shaMaj s.a s.b s.c)
  ⟨w32 (t1 + t2), s.a, s.b, s.c, w32 (s.d + t1), s.e, s.f, s.g⟩

/-- Big-endian 4-byte groups to 32-bit words. -/
def toWordsBE : List Nat → List Nat
  | a :: b :: c :: d :: rest =>
    ((a <<< 24) ||| (b <<< 16) ||| (c <<< 8) ||| d) :: toWordsBE rest
  | _ => []

/-- Message-schedule extension of a 16-word block to 64 words. -/
def schedule (w0 : List Nat) : Array Nat :=
  (List.range 48).foldl
    (fun w t =>
      let i := t + 16
      w.push (w32 (smallSigma1 (w.getD (i - 2) 0) + w.getD (i - 7) 0 +
        smallSigma0 (w.getD (i - 15) 0) + w.getD (i - 16) 0)))
    w0.toArray

/-- Compress one 64-byte block into the running hash value. -/
def compressBlock (s : Hash8) (block : List Nat) : Hash8 :=
  let ws := (schedule (toWordsBE block)).toList
  let r := (sha256K.zip ws).foldl shaRound s
  ⟨w32 (s.a + r.a), w32 (s.b + r.b), w32 (s.c + r.c), w32 (s.d + r.d),
   w32 (s.e + r.e), w32 (s.f + r.f), w32 (s.g + r.g), w32 (s.h + r.h)⟩

/-- The big-endian 8-byte encoding of a length, for the padding trailer. -/
def beBytes8 (n : Nat) : List Nat :=
  [(n >>> 56) &&& 255, (n >>> 48) &&& 255, (n >>> 40) &&& 255, (n >>> 32) &&& 255,
   (n >>> 24) &&& 255, (n >>> 16) &&& 255, (n >>> 8) &&& 255, n &&& 255]

/-- SHA-256 padding: `0x80`, zeros to 56 mod 64, then the bit length. -/
def shaPad (msg : List Nat) : List Nat :=
  msg ++ [128] ++ List.replicate ((119 - msg.length % 64) % 64) 0 ++
    beBytes8 (8 * msg.length)

/-- Split into 64-byte blocks. -/
def chunk64 : List Nat → List (List Nat)
  | [] => []
  | x :: xs => ((x :: xs).take 64) :: chunk64 ((x :: xs).drop 64)
termination_by l => l.length
decreasing_by
  simp only [List.length_drop, List.length_cons]
  omega

/-- One lowercase hexadecimal digit. -/
def hexChar (n : Nat) : Char :=
  if n < 10 then Char.ofNat (48 + n) else Char.ofNat (87 + n)

/-- A 32-bit word as eight lowercase hex characters. -/
def wordHex (w : Nat) : List Char :=
  [hexChar ((w >>> 28) &&& 15), hexChar ((w >>> 24) &&& 15),
   hexChar ((w >>> 20) &&& 15), hexChar ((w >>> 16) &&& 15),
   hexChar ((w >>> 12) &&& 15), hexChar ((w >>> 8) &&& 15),
   hexChar ((w >>> 4) &&& 15), hexChar (w &&& 15)]

/-- The 64-character lowercase hex digest SHA-256 assigns to a byte sequence.
Models `hashlib.sha256(bytes).hexdigest()`. -/
def sha256hex (msg : List Nat) : String :=
  let i :=
    ⟨sha256H0.getD 0 0, sha256H0.getD 1 0, sha256H0.getD 2 0, sha256H0.getD 3 0,
     sha256H0.getD 4 0, sha256H0.getD 5 0, sha256H0.getD 6 0, sha256H0.getD 7 0⟩
  let f := (chunk64 (shaPad msg)).foldl compressBlock i
  ⟨([f.a, f.b, f.c, f.d, f.e, f.f, f.g, f.h].map wordHex).foldr (· ++ ·) []⟩

/-- The chunked read loop of `utils.get_sha256sum` (pdf.py collaborator):
`chunk = f.read(chunk_size); if not chunk: break; hasher.update(chunk)`.
The hasher state is the bytes accumulated so far; `rest` is the unread
remainder of the file. -/
def readLoop (chunkSize : Nat) (acc rest : List Nat) : List Nat :=
  if h : (rest.take chunkSize).isEmpty then acc
  else readLoop chunkSize (acc ++ rest.take chunkSize) (rest.drop chunkSize)
termination_by rest.length
decreasing_by
  simp only [List.isEmpty_iff] at h
  have hr : rest ≠ [] := fun he => h (by simp [he])
  have hc : 0 < chunkSize := by
    rcases Nat.eq_zero_or_pos chunkSize with h0 | h0
    · exact absurd (by simp [h0]) h
    · exact h0
  have hl : 0 < rest.length := List.length_pos.mpr hr
  simp only [List.length_drop]
  omega

/-- `utils.get_sha256sum` on the bytes of an already-opened file: read the
file in 65536-byte chunks, feeding each to the hasher, and return the hex
digest of the accumulated state. -/
def get_sha256sum (fileBytes : List Nat) : String :=
  sha256hex (readLoop 65536 [] fileBytes)

/-! ## Python exceptions

One constructor per exception class the embedded code can raise.  Note
that pymupdf raises its own `FileNotFoundError` (a `RuntimeError`
subclass), a class distinct from the builtin `FileNotFoundError`; and
cattrs runs with detailed validation, wrapping exceptions raised inside
field hooks in a `ClassValidationError`. -/

inductive PyError where
  /-- The builtin `FileNotFoundError` raised by `open` / explicitly in `load`. -/
  | fileNotFound (path : String)
  /-- `json.JSONDecodeError` from `json.load` on malformed content. -/
  | jsonDecodeError (path : String)
  /-- pymupdf's `FileNotFoundError` from `fitz.Pixmap(path)` on a missing file. -/
  | fitzFileNotFound (path : String)
  /-- pymupdf's `FileDataError` from `fitz.Pixmap(path)` on non-image content. -/
  | fitzFileDataError (path : String)
  /-- `TypeError` from iterating `None` (`for span in line.get("spans")`). -/
  | typeErrorNoneNotIterable
  /-- `cattrs.ClassValidationError` wrapping an exception from a field hook. -/
  | classValidation (inner : PyError)
deriving DecidableEq, Repr

/-! ## Data model (the attrs classes of pdf.py) -/

structure BBox where
  x0 : ℚ
  y0 : ℚ
  x1 : ℚ
  y1 : ℚ
deriving DecidableEq, Repr

structure TextBlock where
  text : String
  bbox : BBox
deriving DecidableEq, Repr

/-- A pymupdf `fitz.Pixmap`, modelled by its content bytes: what
`pix.save(path)` writes and `fitz.Pixmap(path)` reads back.  PNG is
lossless, so the raster samples and the serialized bytes determine each
other; document equality "including image byte-equality" is equality of
this field. -/
structure Pixmap where
  data : List Nat
deriving DecidableEq, Repr

/-- `ProcessedPage`.  The source annotates `width`/`height` as `int`, but
`process` assigns `page.rect.width`/`page.rect.height`, which are floats,
and attrs does not validate or convert — so at runtime these fields hold
floats and are modelled as `ℚ`.  The `int` annotation matters only to
cattrs structuring, which calls `int()` on the value (see `pyInt`). -/
structure ProcessedPage where
  page_number : ℤ
  width : ℚ
  height : ℚ
  zoom_factor : ℚ
  raw_text : String
  page_image : Pixmap
  text_blocks : List TextBlock
deriving DecidableEq, Repr

structure ProcessedPDF where
  filename : String
  sha256sum : String
  pages : List ProcessedPage
deriving DecidableEq, Repr

/-! ## The page content tree (`page.get_text("dict")`)

Blocks hold lines hold spans.  Python dict keys that the source accesses
with a guard or a `.get` are modelled as `Option` fields; keys pymupdf
guarantees on every span (`"text"`, `"bbox"` with four coordinates) are
plain fields. -/

structure Span where
  text : String
  x0 : ℚ
  y0 : ℚ
  x1 : ℚ
  y1 : ℚ
deriving DecidableEq, Repr

/-- A line of the content tree; `spans` is `none` when the `"spans"` key
is absent from the line dict. -/
structure Line where
  spans : Option (List Span)
deriving DecidableEq, Repr

/-- A block of the content tree; `type` is `block["type"]` (0 text,
1 image), `lines` is `none` when the `"lines"` key is absent. -/
structure Block where
  type : ℤ
  lines : Option (List Line)
deriving DecidableEq, Repr

/-- The span loop `for span in line.get("spans")` (pdf.py line 181):
`line.get("spans")` has no default, so a line without a `"spans"` key
yields `None` and iterating it raises `TypeError`. -/
def flattenLine (l : Line) : Except PyError (List TextBlock) :=
  match l.spans with
  | none => .error .typeErrorNoneNotIterable
  | some spans =>
    .ok (spans.map fun s => { text := s.text, bbox := ⟨s.x0, s.y0, s.x1, s.y1⟩ })

def flattenLines : List Line → Except PyError (List TextBlock)
  | [] => .ok []
  | l :: ls =>
    match flattenLine l with
    | .error e => .error e
    | .ok a =>
      match flattenLines ls with
      | .error e => .error e
      | .ok r => .ok (a ++ r)

/-- The block loop of `process` (pdf.py lines 176–187):
`if block["type"] == 0 and "lines" in block`, then iterate
`block.get("lines", [])`, flattening each line's spans in order. -/
def flattenBlocks : List Block → Except PyError (List TextBlock)
  | [] => .ok []
  | b :: bs =>
    if (b.type == 0) && b.lines.isSome then
      match flattenLines (b.lines.getD []) with
      | .error e => .error e
      | .ok a =>
        match flattenBlocks bs with
        | .error e => .error e
        | .ok r => .ok (a ++ r)
    else flattenBlocks bs

/-! ## The page extractor (`pdf.process`) -/

/-- One page of an opened pymupdf document, by the observations `process`
makes of it: `page.get_text("text")`, the `"blocks"` entry of
`page.get_text("dict")` (`none` when the key is absent —
`dict_data.get("blocks", [])`), the native `page.rect` dimensions in
points, and the pixmap `page.get_pixmap` renders at the fixed
`Matrix(150/72, 150/72)` the source always uses. -/
structure PageHandle where
  rawText : String
  blocks : Option (List Block)
  width : ℚ
  height : ℚ
  pixmap : Pixmap
deriving DecidableEq, Repr

/-- An opened pymupdf document: the result of `fitz.open(path)`. -/
structure FDoc where
  pageList : List PageHandle
deriving DecidableEq, Repr

/-- `DPI = 150` (pdf.py line 12). -/
def DPI : ℚ := 150

/-- The per-page loop of `pdf.process` (pdf.py lines 157–205); `n` is the
0-based ordinal of the first page of `hs`, so `page_number = n + 1`. -/
def processPages : (hs : List PageHandle) → (n : Nat) → Except PyError (List ProcessedPage)
  | [], _ => .ok []
  | h :: t, n =>
    match flattenBlocks (h.blocks.getD []) with
    | .error e => .error e
    | .ok text_blocks =>
      match processPages t (n + 1) with
      | .error e => .error e
      | .ok rest =>
        .ok ({ page_number := (n : ℤ) + 1,
               width := h.width,
               height := h.height,
               zoom_factor := DPI / 72,
               raw_text := h.rawText,
               page_image := h.pixmap,
               text_blocks := text_blocks } :: rest)

/-! ## The unstructured record (cattrs output, `json.dump`/`json.load` content) -/

/-- The unstructured form of a `ProcessedPage`: inline fields as plain
values, the pixmap replaced by the asset filename the unstructure hook
returned.  `TextBlock`/`BBox` unstructure to records with identical
fields and values (strings and floats are passed through), so the same
types are reused for them. -/
structure UPage where
  page_number : ℤ
  width : ℚ
  height : ℚ
  zoom_factor : ℚ
  raw_text : String
  page_image : String
  text_blocks : List TextBlock
deriving DecidableEq, Repr

/-- The unstructured form of a `ProcessedPDF`: the content of the
`processed_pdf.json` record file. -/
structure UPDF where
  filename : String
  sha256sum : String
  pages : List UPage
deriving DecidableEq, Repr

/-! ## The filesystem -/

/-- Contents of one file: raw bytes, or a structured record as
`json.dump` of a cattrs-unstructured `ProcessedPDF` writes it.
`json.dump`/`json.load` (Python standard library) are modelled as a
faithful pair, so a record file holds the record itself; `json.load` on
any other content is a `json.JSONDecodeError`. -/
inductive FData where
  | bin (bytes : List Nat)
  | record (r : UPDF)
deriving DecidableEq, Repr

/-- Byte view of a file, as `open(path, "rb").read()` sees it.  The byte
serialization of a record file is not needed on any modelled code path
(the program only ever hashes the source document), so it is `[]`. -/
def FData.bytes : FData → List Nat
  | .bin b => b
  | .record _ => []

/-- The filesystem: the set of existing directories and an association
list from path strings to file contents. -/
structure FS where
  dirs : List String
  files : List (String × FData)
deriving DecidableEq, Repr

def lookupA : List (String × FData) → String → Option FData
  | [], _ => none
  | (k, v) :: t, key => if k = key then some v else lookupA t key

/-- Write (create or overwrite in place) one key of an association list. -/
def updateA : List (String × FData) → String → FData → List (String × FData)
  | [], key, v => [(key, v)]
  | (k, w) :: t, key, v =>
    if k = key then (key, v) :: t else (k, w) :: updateA t key v

def FS.readFile (fs : FS) (path : String) : Option FData := lookupA fs.files path

def FS.writeFile (fs : FS) (path : String) (v : FData) : FS :=
  { fs with files := updateA fs.files path v }

/-- `Path.mkdir(exist_ok=True, parents=True)`: create the directory if
absent, succeed silently if it already exists. -/
def FS.mkdirP (fs : FS) (d : String) : FS :=
  if d ∈ fs.dirs then fs else { fs with dirs := d :: fs.dirs }

/-- `utils.get_sha256sum(path)` including its `open(path, "rb")`: a
missing file raises the builtin `FileNotFoundError`; otherwise the
chunked digest of the file's bytes is returned. -/
def get_sha256sumFS (fs : FS) (path : String) : Except PyError String :=
  match fs.readFile path with
  | none => .error (.fileNotFound path)
  | some fd => .ok (get_sha256sum fd.bytes)

/-- `pathlib.Path(path).name`: the final path component — everything
after the last separator. -/
def pathName (path : String) : String :=
  ⟨path.data.foldl (fun acc c => if c = '/' then [] else acc ++ [c]) []⟩

/-- `pdf.process` (pdf.py lines 150–213) given the opened document: the
external `fitz.open(path)` parse is `doc`; `fs` supplies the bytes the
final `get_sha256sum(path)` reads.  The source raises no error on a
zero-page document — the loop simply runs zero times. -/
def process (doc : FDoc) (path : String) (fs : FS) : Except PyError ProcessedPDF :=
  match processPages doc.pageList 0 with
  | .error e => .error e
  | .ok pages =>
    match get_sha256sumFS fs path with
    | .error e => .error e
    | .ok sha256sum =>
      .ok { filename := pathName path, sha256sum := sha256sum, pages := pages }

/-! ## The asset codec (`get_converter` and its hooks, pdf.py lines 55–104) -/

/-- `STORAGE_DIR = Path(".cache")` (pdf.py line 13). -/
def STORAGE_DIR : String := ".cache"

/-- `_unstructure_pixmap` from `make_unstructure_pixmap_hook(image_dir)`
(pdf.py lines 61–76): derive the filename from the pixmap's own content
digest (`digestFn` models `pix.digest.hex()`), save the pixmap there
*unconditionally* — `pix.save(full_path)` has no already-exists check
and overwrites — and return the filename for the record. -/
def unstructurePixmap (digestFn : List Nat → String) (imageDir : String)
    (pix : Pixmap) (fs : FS) : String × FS :=
  let filename := digestFn pix.data ++ ".png"
  (filename, fs.writeFile (imageDir ++ "/" ++ filename) (.bin pix.data))

/-- `_structure_pixmap` from `make_structure_pixmap_hook(image_dir)`
(pdf.py lines 84–93): `fitz.Pixmap(image_dir / path_str)`.  A missing
file raises pymupdf's `FileNotFoundError`; non-image content raises
pymupdf's `FileDataError`. -/
def structurePixmap (imageDir : String) (pathStr : String) (fs : FS) :
    Except PyError Pixmap :=
  match fs.readFile (imageDir ++ "/" ++ pathStr) with
  | none => .error (.fitzFileNotFound (imageDir ++ "/" ++ pathStr))
  | some (.bin b) => .ok ⟨b⟩
  | some (.record _) => .error (.fitzFileDataError (imageDir ++ "/" ++ pathStr))

/-- cattrs unstructuring of one `ProcessedPage`: inline fields copied,
the pixmap field replaced by the filename its hook returns (writing the
image as a side effect). -/
def unstructurePage (digestFn : List Nat → String) (imageDir : String)
    (p : ProcessedPage) (fs : FS) : UPage × FS :=
  let r := unstructurePixmap digestFn imageDir p.page_image fs
  ({ page_number := p.page_number, width := p.width, height := p.height,
     zoom_factor := p.zoom_factor, raw_text := p.raw_text,
     page_image := r.1, text_blocks := p.text_blocks }, r.2)

/-- cattrs unstructuring of the pages list, in list order, threading the
filesystem through the per-page image writes. -/
def unstructurePages (digestFn : List Nat → String) (imageDir : String) :
    List ProcessedPage → FS → List UPage × FS
  | [], fs => ([], fs)
  | p :: ps, fs =>
    let r := unstructurePage digestFn imageDir p fs
    let rest := unstructurePages digestFn imageDir ps r.2
    (r.1 :: rest.1, rest.2)

/-- `converter.unstructure(processed_pdf)` with the pixmap hook
installed: the serializable record, plus the filesystem after all page
images have been written to the asset directory. -/
def unstructurePDF (digestFn : List Nat → String) (imageDir : String)
    (d : ProcessedPDF) (fs : FS) : UPDF × FS :=
  let r := unstructurePages digestFn imageDir d.pages fs
  ({ filename := d.filename, sha256sum := d.sha256sum, pages := r.1 }, r.2)

/-- Python `int(x)`: truncation toward zero.  cattrs structures a field
annotated `int` by calling `int` on the value, so a float stored in an
int-annotated field loses its fractional part on structuring. -/
def pyInt (q : ℚ) : ℤ := if 0 ≤ q then ⌊q⌋ else ⌈q⌉

/-- cattrs structuring of one page record: the pixmap hook loads the
image file; `page_number` (an int) is passed through `int()` unchanged;
`width`/`height` are floats in the record but annotated `int` on the
class, so `int()` truncates them; float- and str-annotated fields are
passed through. -/
def structurePage (imageDir : String) (u : UPage) (fs : FS) :
    Except PyError ProcessedPage :=
  match structurePixmap imageDir u.page_image fs with
  | .error e => .error e
  | .ok pix =>
    .ok { page_number := u.page_number,
          width := (pyInt u.width : ℚ),
          height := (pyInt u.height : ℚ),
          zoom_factor := u.zoom_factor,
          raw_text := u.raw_text,
          page_image := pix,
          text_blocks := u.text_blocks }

def structurePages (imageDir : String) :
    List UPage → FS → Except PyError (List ProcessedPage)
  | [], _ => .ok []
  | u :: us, fs =>
    match structurePage imageDir u fs with
    | .error e => .error e
    | .ok p =>
      match structurePages imageDir us fs with
      | .error e => .error e
      | .ok ps => .ok (p :: ps)

/-- `converter.structure(unstructured, ProcessedPDF)`.  cattrs runs with
detailed validation (its default), so an exception raised inside a field
hook — such as the pixmap loader — surfaces wrapped in a
`cattrs.ClassValidationError`, never as the bare inner exception. -/
def structurePDF (imageDir : String) (u : UPDF) (fs : FS) :
    Except PyError ProcessedPDF :=
  match structurePages imageDir u.pages fs with
  | .ok ps => .ok { filename := u.filename, sha256sum := u.sha256sum, pages := ps }
  | .error e => .error (.classValidation e)

/-! ## The cache store (`pdf.load` / `pdf.store`) -/

/-- The cache-entry tail of `pdf.load` (pdf.py lines 111–123), given the
already-computed digest of the source file.  The only existence check
the source performs is `sub_dir.exists()`; its explicit
`raise FileNotFoundError(path)` is the cache-miss signal.  The record
file is then opened (a missing record file is again the builtin
`FileNotFoundError`, raised by `open`) and parsed by `json.load`, and
the record is structured against the entry directory. -/
def loadEntry (sha : String) (path : String) (fs : FS) : Except PyError ProcessedPDF :=
  let subDir := STORAGE_DIR ++ "/" ++ sha
  if subDir ∈ fs.dirs then
    match fs.readFile (subDir ++ "/" ++ "processed_pdf.json") with
    | none => .error (.fileNotFound (subDir ++ "/" ++ "processed_pdf.json"))
    | some (.bin _) => .error (.jsonDecodeError (subDir ++ "/" ++ "processed_pdf.json"))
    | some (.record u) => structurePDF subDir u fs
  else .error (.fileNotFound path)

/-- `pdf.load(path)` (pdf.py lines 107–123): recompute the SHA-256 digest
of the file currently at `path`, then read the cache entry it names. -/
def load (path : String) (fs : FS) : Except PyError ProcessedPDF :=
  match get_sha256sumFS fs path with
  | .error e => .error e
  | .ok sha => loadEntry sha path fs

/-- `pdf.store(processed_pdf)` (pdf.py lines 126–147): create the entry
directory keyed by `processed_pdf.sha256sum` (`exist_ok=True`),
unstructure the document into it (writing every page image), and write
the record file (overwriting any previous record). -/
def store (digestFn : List Nat → String) (d : ProcessedPDF) (fs : FS) : FS :=
  let subDir := STORAGE_DIR ++ "/" ++ d.sha256sum
  let fs1 := fs.mkdirP subDir
  let r := unstructurePDF digestFn subDir d fs1
  r.2.writeFile (subDir ++ "/" ++ "processed_pdf.json") (.record r.1)

/-- Modelled from the spec: `exists(digest)` — "true iff a cache entry
directory for that digest is present and contains a structured record
file".  The source defines no such function (its only check is the
`sub_dir.exists()` inside `load`); this definition follows the spec's
words, and claim C2 compares `load`'s behaviour against it. -/
def cacheExistsSpec (digest : String) (fs : FS) : Bool :=
  decide ((STORAGE_DIR ++ "/" ++ digest) ∈ fs.dirs) &&
    (fs.readFile (STORAGE_DIR ++ "/" ++ digest ++ "/" ++ "processed_pdf.json")).isSome

/-! ## Association-list and filesystem lemmas -/

theorem lookupA_updateA_self (l : List (String × FData)) (k : String) (v : FData) :
    lookupA (updateA l k v) k = some v := by
  induction l with
  | nil => simp [lookupA, updateA]
  | cons hd t ih =>
    obtain ⟨k0, w⟩ := hd
    by_cases h : k0 = k
    · simp [updateA, h, lookupA]
    · simp [updateA, h, lookupA, ih]

theorem lookupA_updateA_ne (l : List (String × FData)) (k k' : String) (v : FData)
    (h : k ≠ k') : lookupA (updateA l k v) k' = lookupA l k' := by
  induction l with
  | nil => simp [lookupA, updateA, h]
  | cons hd t ih =>
    obtain ⟨k0, w⟩ := hd
    by_cases h0 : k0 = k
    · subst h0
      simp [updateA, lookupA, h]
    · by_cases h1 : k0 = k'
      · subst h1
        simp [updateA, lookupA, Ne.symm h]
      · simp [updateA, h0, lookupA, h1, ih]

theorem updateA_of_lookupA (l : List (String × FData)) (k : String) (v : FData)
    (h : lookupA l k = some v) : updateA l k v = l := by
  induction l with
  | nil => simp [lookupA] at h
  | cons hd t ih =>
    obtain ⟨k0, w⟩ := hd
    by_cases h0 : k0 = k
    · subst h0
      simp [lookupA] at h
      simp [updateA, h]
    · simp [lookupA, h0] at h
      simp [updateA, h0, ih h]

theorem FS.readFile_writeFile_self (fs : FS) (k : String) (v : FData) :
    (fs.writeFile k v).readFile k = some v :=
  lookupA_updateA_self fs.files k v

theorem FS.readFile_writeFile_ne (fs : FS) (k k' : String) (v : FData) (h : k ≠ k') :
    (fs.writeFile k v).readFile k' = fs.readFile k' :=
  lookupA_updateA_ne fs.files k k' v h

theorem FS.writeFile_of_readFile (fs : FS) (k : String) (v : FData)
    (h : fs.readFile k = some v) : fs.writeFile k v = fs := by
  have : updateA fs.files k v = fs.files := updateA_of_lookupA fs.files k v h
  simp [FS.writeFile, this]

theorem FS.dirs_writeFile (fs : FS) (k : String) (v : FData) :
    (fs.writeFile k v).dirs = fs.dirs := rfl

theorem FS.mem_dirs_mkdirP (fs : FS) (d : String) : d ∈ (fs.mkdirP d).dirs := by
  unfold FS.mkdirP
  by_cases h : d ∈ fs.dirs <;> simp [h]

theorem FS.readFile_mkdirP (fs : FS) (d k : String) :
    (fs.mkdirP d).readFile k = fs.readFile k := by
  unfold FS.mkdirP
  by_cases h : d ∈ fs.dirs <;> simp [h, FS.readFile]

theorem FS.mkdirP_of_mem (fs : FS) (d : String) (h : d ∈ fs.dirs) :
    fs.mkdirP d = fs := by
  simp [FS.mkdirP, h]

/-! ## String lemmas

Needed to separate the record-file key from the content-named asset
keys, and cache-internal keys from a source path, without evaluating
any digest string. -/

theorem string_append_left_cancel {a b c : String} (h : a ++ b = a ++ c) : b = c := by
  have hd : a.data ++ b.data = a.data ++ c.data := by
    have h1 := congrArg String.data h
    simpa [String.data_append] using h1
  have hbc : b.data = c.data := List.append_cancel_left hd
  cases b
  cases c
  exact congrArg String.mk hbc

theorem string_append_right_cancel {a b c : String} (h : a ++ c = b ++ c) : a = b := by
  have hd : a.data ++ c.data = b.data ++ c.data := by
    have h1 := congrArg String.data h
    simpa [String.data_append] using h1
  have hab : a.data = b.data := List.append_cancel_right hd
  cases a
  cases b
  exact congrArg String.mk hab

/-- No digest-derived asset filename collides with the record filename:
anything ending in `.png` is not `processed_pdf.json`. -/
theorem png_ne_record_name (s : String) : s ++ ".png" ≠ "processed_pdf.json" := by
  intro h
  have hd : s.data ++ (".png" : String).data = ("processed_pdf.json" : String).data := by
    have h1 := congrArg String.data h
    simpa [String.data_append] using h1
  have hlast := congrArg List.getLast? hd
  rw [List.getLast?_append] at hlast
  simp at hlast

/-- A string strictly shorter than another is not equal to it. -/
theorem string_ne_of_length_lt {a b : String} (h : a.length < b.length) : a ≠ b :=
  fun he => absurd (congrArg String.length he) (Nat.ne_of_lt h)

/-! ## Codec lemmas -/

/-- The path under which a page's image is written and read back. -/
def assetKey (digestFn : List Nat → String) (imageDir : String)
    (p : ProcessedPage) : String :=
  imageDir ++ "/" ++ (digestFn p.page_image.data ++ ".png")

/-- The record cattrs produces for one page (statement vocabulary; equals
`(unstructurePage ..).1` by `unstructurePages_fst`). -/
def toUPage (digestFn : List Nat → String) (p : ProcessedPage) : UPage :=
  { page_number := p.page_number, width := p.width, height := p.height,
    zoom_factor := p.zoom_factor, raw_text := p.raw_text,
    page_image := digestFn p.page_image.data ++ ".png",
    text_blocks := p.text_blocks }

/-- A page after one serialization round trip: `width`/`height` have been
through Python's `int()` because of the class annotations; every other
field is intact. -/
def truncPage (p : ProcessedPage) : ProcessedPage :=
  { p with width := (pyInt p.width : ℚ), height := (pyInt p.height : ℚ) }

/-- The record `store`/`unstructurePDF` writes for a document. -/
def uRecord (digestFn : List Nat → String) (d : ProcessedPDF) : UPDF :=
  { filename := d.filename, sha256sum := d.sha256sum,
    pages := d.pages.map (toUPage digestFn) }

/-- Collision freedom of the image digest on a set of pages: equal digest
strings only arise from equal image bytes. -/
def DigestInjOn (digestFn : List Nat → String) (ps : List ProcessedPage) : Prop :=
  ∀ p ∈ ps, ∀ q ∈ ps,
    digestFn p.page_image.data = digestFn q.page_image.data →
      p.page_image.data = q.page_image.data

instance (digestFn : List Nat → String) (ps : List ProcessedPage) :
    Decidable (DigestInjOn digestFn ps) := by
  unfold DigestInjOn
  infer_instance

theorem DigestInjOn.tail {digestFn : List Nat → String} {p : ProcessedPage}
    {ps : List ProcessedPage} (h : DigestInjOn digestFn (p :: ps)) :
    DigestInjOn digestFn ps :=
  fun a ha b hb => h a (List.mem_cons_of_mem p ha) b (List.mem_cons_of_mem p hb)

/-- Equal asset keys force equal digest strings. -/
theorem assetKey_inj_digest {digestFn : List Nat → String} {imageDir : String}
    {p q : ProcessedPage} (h : assetKey digestFn imageDir p = assetKey digestFn imageDir q) :
    digestFn p.page_image.data = digestFn q.page_image.data :=
  string_append_right_cancel (string_append_left_cancel h)

/-- The record half of unstructuring does not depend on the filesystem:
it is the per-page `toUPage` map. -/
theorem unstructurePages_fst (digestFn : List Nat → String) (imageDir : String)
    (ps : List ProcessedPage) (fs : FS) :
    (unstructurePages digestFn imageDir ps fs).1 = ps.map (toUPage digestFn) := by
  induction ps generalizing fs with
  | nil => simp [unstructurePages]
  | cons p t ih =>
    simp [unstructurePages, unstructurePage, unstructurePixmap, toUPage, ih]

/-- Unstructuring writes files only; the directory set is untouched. -/
theorem unstructurePages_dirs (digestFn : List Nat → String) (imageDir : String)
    (ps : List ProcessedPage) (fs : FS) :
    (unstructurePages digestFn imageDir ps fs).2.dirs = fs.dirs := by
  induction ps generalizing fs with
  | nil => simp [unstructurePages]
  | cons p t ih =>
    simp [unstructurePages, unstructurePage, unstructurePixmap, ih, FS.dirs_writeFile]

/-- Frame: a key that is no page's asset key is untouched by the image
writes. -/
theorem unstructurePages_readFile_ne (digestFn : List Nat → String) (imageDir : String)
    (ps : List ProcessedPage) (fs : FS) (k : String)
    (hk : ∀ p ∈ ps, assetKey digestFn imageDir p ≠ k) :
    (unstructurePages digestFn imageDir ps fs).2.readFile k = fs.readFile k := by
  induction ps generalizing fs with
  | nil => simp [unstructurePages]
  | cons p t ih =>
    have h1 : assetKey digestFn imageDir p ≠ k := hk p (by simp)
    have h2 : ∀ q ∈ t, assetKey digestFn imageDir q ≠ k :=
      fun q hq => hk q (List.mem_cons_of_mem p hq)
    simp only [unstructurePages, unstructurePage, unstructurePixmap]
    rw [ih _ h2, FS.readFile_writeFile_ne]
    exact h1

/-- Stability: if every image write that hits key `k` writes value `v`,
and `k` already holds `v`, it still holds `v` afterwards. -/
theorem unstructurePages_readFile_stable (digestFn : List Nat → String)
    (imageDir : String) (ps : List ProcessedPage) (fs : FS) (k : String) (v : FData)
    (hv : ∀ p ∈ ps, assetKey digestFn imageDir p = k → FData.bin p.page_image.data = v)
    (h0 : fs.readFile k = some v) :
    (unstructurePages digestFn imageDir ps fs).2.readFile k = some v := by
  induction ps generalizing fs with
  | nil => simpa [unstructurePages] using h0
  | cons p t ih =>
    simp only [unstructurePages, unstructurePage, unstructurePixmap]
    apply ih _ (fun q hq => hv q (List.mem_cons_of_mem p hq))
    by_cases hpk : assetKey digestFn imageDir p = k
    · rw [← hpk, assetKey, FS.readFile_writeFile_self]
      exact congrArg some (hv p (by simp) hpk)
    · exact (FS.readFile_writeFile_ne fs _ k _ (by simpa [assetKey] using hpk)).trans h0

/-- Every page's image is readable back at its asset key once the whole
pages list has been unstructured — collisions between asset keys can
only overwrite equal bytes, by collision freedom of the digest. -/
theorem unstructurePages_readFile (digestFn : List Nat → String) (imageDir : String) :
    ∀ (ps : List ProcessedPage) (fs : FS), DigestInjOn digestFn ps →
      ∀ q ∈ ps,
        (unstructurePages digestFn imageDir ps fs).2.readFile (assetKey digestFn imageDir q)
          = some (.bin q.page_image.data) := by
  intro ps
  induction ps with
  | nil => intro fs _ q hq; cases hq
  | cons p t ih =>
    intro fs hinj q hq
    simp only [unstructurePages, unstructurePage, unstructurePixmap]
    rcases List.mem_cons.mp hq with h | h
    · subst h
      apply unstructurePages_readFile_stable
      · intro r hr hrk
        exact congrArg FData.bin
          (hinj r (List.mem_cons_of_mem _ hr) q (List.mem_cons_self _ _)
            (assetKey_inj_digest hrk))
      · simpa [assetKey] using
          FS.readFile_writeFile_self fs
            (imageDir ++ "/" ++ (digestFn q.page_image.data ++ ".png"))
            (FData.bin q.page_image.data)
    · exact ih _ hinj.tail q h

/-- If every page's image already sits at its asset key with its own
bytes, unstructuring changes nothing: each save overwrites a file with
its identical content. -/
theorem unstructurePages_noop (digestFn : List Nat → String) (imageDir : String) :
    ∀ (ps : List ProcessedPage) (fs : FS),
      (∀ p ∈ ps,
        fs.readFile (assetKey digestFn imageDir p) = some (.bin p.page_image.data)) →
      (unstructurePages digestFn imageDir ps fs).2 = fs := by
  intro ps
  induction ps with
  | nil => intro fs _; rfl
  | cons p t ih =>
    intro fs h
    simp only [unstructurePages, unstructurePage, unstructurePixmap]
    have hw : fs.writeFile (imageDir ++ "/" ++ (digestFn p.page_image.data ++ ".png"))
        (.bin p.page_image.data) = fs :=
      FS.writeFile_of_readFile _ _ _ (by simpa [assetKey] using h p (by simp))
    rw [hw]
    exact ih fs (fun q hq => h q (List.mem_cons_of_mem p hq))

/-- Structuring the records of a page list succeeds when every asset is
in place, and returns each page with `width`/`height` truncated by the
`int()` that cattrs applies to int-annotated fields. -/
theorem structurePages_map_toUPage (digestFn : List Nat → String) (imageDir : String) :
    ∀ (ps : List ProcessedPage) (fs : FS),
      (∀ p ∈ ps,
        fs.readFile (assetKey digestFn imageDir p) = some (.bin p.page_image.data)) →
      structurePages imageDir (ps.map (toUPage digestFn)) fs = .ok (ps.map truncPage) := by
  intro ps
  induction ps with
  | nil => intro fs _; rfl
  | cons p t ih =>
    intro fs h
    have hp : fs.readFile (imageDir ++ "/" ++ (digestFn p.page_image.data ++ ".png"))
        = some (.bin p.page_image.data) := by simpa [assetKey] using h p (by simp)
    simp only [List.map_cons, structurePages, structurePage, structurePixmap, toUPage, hp]
    rw [ih fs (fun q hq => h q (List.mem_cons_of_mem p hq))]
    simp [truncPage]

/-- If structuring a record's pages succeeded, every referenced asset
file was present. -/
theorem structurePages_ok_assets (imageDir : String) :
    ∀ (us : List UPage) (fs : FS) (ps : List ProcessedPage),
      structurePages imageDir us fs = .ok ps →
      ∀ u ∈ us, (fs.readFile (imageDir ++ "/" ++ u.page_image)).isSome = true := by
  intro us
  induction us with
  | nil => intro fs ps _ u hu; cases hu
  | cons u0 t ih =>
    intro fs ps h u hu
    rcases hsp : structurePixmap imageDir u0.page_image fs with e | pix
    · rw [structurePages, structurePage, hsp] at h
      simp [Except.bind] at h
    · rcases hrest : structurePages imageDir t fs with e' | ps'
      · rw [structurePages, structurePage, hsp, hrest] at h
        simp [Except.bind] at h
      · rcases List.mem_cons.mp hu with h0 | h0
        · subst h0
          rcases hrf : fs.readFile (imageDir ++ "/" ++ u.page_image) with _ | fd
          · rw [structurePixmap, hrf] at hsp
            cases hsp
          · rfl
        · exact ih fs ps' hrest u h0

/-! ## Store and load lemmas -/

/-- The cache entry directory of a document: `STORAGE_DIR / sha256sum`. -/
def entryDir (d : ProcessedPDF) : String := STORAGE_DIR ++ "/" ++ d.sha256sum

/-- The record file of a document's cache entry. -/
def recordKey (d : ProcessedPDF) : String := entryDir d ++ "/" ++ "processed_pdf.json"

/-- The record file never collides with a content-named asset file. -/
theorem recordKey_ne_assetKey (digestFn : List Nat → String) (d : ProcessedPDF)
    (p : ProcessedPage) : recordKey d ≠ assetKey digestFn (entryDir d) p :=
  fun h => png_ne_record_name _ ((string_append_left_cancel h).symm)

/-- `store` in entry-directory vocabulary (pure unfolding). -/
theorem store_eq (digestFn : List Nat → String) (d : ProcessedPDF) (fs : FS) :
    store digestFn d fs =
      (unstructurePDF digestFn (entryDir d) d (fs.mkdirP (entryDir d))).2.writeFile
        (recordKey d)
        (.record (unstructurePDF digestFn (entryDir d) d (fs.mkdirP (entryDir d))).1) := rfl

theorem store_dirs_mem (digestFn : List Nat → String) (d : ProcessedPDF) (fs : FS) :
    entryDir d ∈ (store digestFn d fs).dirs := by
  rw [store_eq]
  have h1 : ((unstructurePDF digestFn (entryDir d) d (fs.mkdirP (entryDir d))).2.writeFile
      (recordKey d)
      (.record (unstructurePDF digestFn (entryDir d) d (fs.mkdirP (entryDir d))).1)).dirs
      = (fs.mkdirP (entryDir d)).dirs := by
    rw [FS.dirs_writeFile]
    exact unstructurePages_dirs digestFn (entryDir d) d.pages _
  rw [h1]
  exact FS.mem_dirs_mkdirP fs _

theorem store_readFile_record (digestFn : List Nat → String) (d : ProcessedPDF) (fs : FS) :
    (store digestFn d fs).readFile (recordKey d) = some (.record (uRecord digestFn d)) := by
  rw [store_eq]
  have h1 : (unstructurePDF digestFn (entryDir d) d (fs.mkdirP (entryDir d))).1
      = uRecord digestFn d := by
    simp [unstructurePDF, uRecord, unstructurePages_fst]
  rw [FS.readFile_writeFile_self]
  exact congrArg (some ∘ FData.record) h1

theorem store_readFile_asset (digestFn : List Nat → String) (d : ProcessedPDF) (fs : FS)
    (hinj : DigestInjOn digestFn d.pages) (q : ProcessedPage) (hq : q ∈ d.pages) :
    (store digestFn d fs).readFile (assetKey digestFn (entryDir d) q)
      = some (.bin q.page_image.data) := by
  rw [store_eq]
  rw [FS.readFile_writeFile_ne _ _ _ _ (recordKey_ne_assetKey digestFn d q)]
  exact unstructurePages_readFile digestFn (entryDir d) d.pages _ hinj q hq

/-- Frame: `store` touches only the record file and the asset files. -/
theorem store_readFile_other (digestFn : List Nat → String) (d : ProcessedPDF) (fs : FS)
    (k : String) (h1 : recordKey d ≠ k)
    (h2 : ∀ p ∈ d.pages, assetKey digestFn (entryDir d) p ≠ k) :
    (store digestFn d fs).readFile k = fs.readFile k := by
  rw [store_eq]
  rw [FS.readFile_writeFile_ne _ _ _ _ h1]
  have h3 : (unstructurePDF digestFn (entryDir d) d (fs.mkdirP (entryDir d))).2.readFile k
      = (fs.mkdirP (entryDir d)).readFile k :=
    unstructurePages_readFile_ne digestFn (entryDir d) d.pages _ k h2
  rw [h3, FS.readFile_mkdirP]

/-- `store` is the identity on a filesystem that already holds exactly
what it would write. -/
theorem store_noop (digestFn : List Nat → String) (d : ProcessedPDF) (fs : FS)
    (hdir : entryDir d ∈ fs.dirs)
    (hrec : fs.readFile (recordKey d) = some (.record (uRecord digestFn d)))
    (hassets : ∀ p ∈ d.pages,
      fs.readFile (assetKey digestFn (entryDir d) p) = some (.bin p.page_image.data)) :
    store digestFn d fs = fs := by
  rw [store_eq]
  rw [FS.mkdirP_of_mem fs _ hdir]
  have h2 : (unstructurePDF digestFn (entryDir d) d fs).2 = fs :=
    unstructurePages_noop digestFn (entryDir d) d.pages fs hassets
  have h3 : (unstructurePDF digestFn (entryDir d) d fs).1 = uRecord digestFn d := by
    simp [unstructurePDF, uRecord, unstructurePages_fst]
  rw [h2, h3]
  exact FS.writeFile_of_readFile fs _ _ hrec

/-- Storing the same document twice is the identity on the second call. -/
theorem store_store (digestFn : List Nat → String) (d : ProcessedPDF) (fs : FS)
    (hinj : DigestInjOn digestFn d.pages) :
    store digestFn d (store digestFn d fs) = store digestFn d fs :=
  store_noop digestFn d _ (store_dirs_mem digestFn d fs)
    (store_readFile_record digestFn d fs)
    (fun p hp => store_readFile_asset digestFn d fs hinj p hp)

/-- Pages whose dimensions are integral are fixed points of the
round-trip truncation. -/
theorem map_truncPage_id (ps : List ProcessedPage)
    (hdims : ∀ p ∈ ps,
      ((pyInt p.width : ℤ) : ℚ) = p.width ∧ ((pyInt p.height : ℤ) : ℚ) = p.height) :
    ps.map truncPage = ps := by
  induction ps with
  | nil => rfl
  | cons p t ih =>
    have hp := hdims p (by simp)
    have ht : t.map truncPage = t := ih (fun q hq => hdims q (List.mem_cons_of_mem p hq))
    have hphd : truncPage p = p := by
      cases p
      simp only [truncPage] at *
      simp [hp.1, hp.2]
    simp [hphd, ht]

/-! ## Further small lemmas used to settle the claims -/

theorem lookupA_cons_self (k : String) (v : FData) (t : List (String × FData)) :
    lookupA ((k, v) :: t) k = some v := by
  simp [lookupA]

theorem lookupA_cons_ne (k1 : String) (v1 : FData) (t : List (String × FData))
    (key : String) (h : k1 ≠ key) : lookupA ((k1, v1) :: t) key = lookupA t key := by
  simp [lookupA, h]

/-- Length of any path of the form `.cache/<sha>/<rest>`. -/
theorem cachePath_length (sha rest : String) :
    (STORAGE_DIR ++ "/" ++ sha ++ "/" ++ rest).length = 8 + sha.length + rest.length := by
  rw [String.length_append, String.length_append, String.length_append,
    String.length_append]
  rw [show (STORAGE_DIR : String).length = 6 from rfl,
    show ("/" : String).length = 1 from rfl]
  omega

/-- A path shorter than 8 characters is not inside any cache entry. -/
theorem short_ne_cachePath (srcPath sha rest : String) (h : srcPath.length < 8) :
    srcPath ≠ STORAGE_DIR ++ "/" ++ sha ++ "/" ++ rest := by
  apply string_ne_of_length_lt
  rw [cachePath_length]
  omega

/-- The only error `converter.structure` can surface is the cattrs
validation wrapper. -/
theorem structurePDF_error_classValidation (imageDir : String) (u : UPDF) (fs : FS)
    (e : PyError) (h : structurePDF imageDir u fs = .error e) :
    ∃ e0, e = .classValidation e0 := by
  unfold structurePDF at h
  rcases hm : structurePages imageDir u.pages fs with e1 | ps
  · rw [hm] at h
    injection h with h2
    exact ⟨e1, h2.symm⟩
  · rw [hm] at h
    cases h

/-- The chunked read loop accumulates exactly the remaining bytes. -/
theorem readLoop_append (chunkSize : Nat) (hc : 0 < chunkSize) :
    ∀ (n : Nat) (rest : List Nat), rest.length ≤ n →
      ∀ acc, readLoop chunkSize acc rest = acc ++ rest := by
  intro n
  induction n with
  | zero =>
    intro rest h acc
    have h0 : rest = [] := List.length_eq_zero.mp (Nat.le_zero.mp h)
    subst h0
    rw [readLoop]
    simp
  | succ n ih =>
    intro rest h acc
    rw [readLoop]
    by_cases he : (rest.take chunkSize).isEmpty
    · have h0 : rest = [] := by
        rcases List.take_eq_nil_iff.mp (List.isEmpty_iff.mp he) with h0 | h0
        · omega
        · exact h0
      subst h0
      simp
    · rw [dif_neg he]
      have hne : rest ≠ [] := by
        intro h0
        subst h0
        simp at he
      have hlen : (rest.drop chunkSize).length ≤ n := by
        have hpos : 0 < rest.length := List.length_pos.mpr hne
        simp only [List.length_drop]
        omega
      rw [ih _ hlen]
      rw [List.append_assoc, List.take_append_drop]

/-- Feeding the file to the hasher in 64 KiB chunks hashes the whole
byte sequence. -/
theorem get_sha256sum_eq_sha256hex (b : List Nat) : get_sha256sum b = sha256hex b := by
  unfold get_sha256sum
  rw [readLoop_append 65536 (by norm_num) b.length b (Nat.le_refl _) []]
  rfl

/-- The per-page loop numbers its output consecutively from `n + 1`. -/
theorem processPages_page_number :
    ∀ (hs : List PageHandle) (n : Nat) (ps : List ProcessedPage),
      processPages hs n = .ok ps →
      ∀ i (hi : i < ps.length), (ps.get ⟨i, hi⟩).page_number = (n : ℤ) + i + 1 := by
  intro hs
  induction hs with
  | nil =>
    intro n ps h i hi
    rw [processPages] at h
    injection h with h2
    subst h2
    simp at hi
  | cons p t ih =>
    intro n ps h i hi
    rw [processPages] at h
    rcases hfb : flattenBlocks (p.blocks.getD []) with e | tbs
    · rw [hfb] at h
      cases h
    · rw [hfb] at h
      rcases hrest : processPages t (n + 1) with e | rest
      · rw [hrest] at h
        cases h
      · rw [hrest] at h
        injection h with h2
        subst h2
        cases i with
        | zero => simp
        | succ j =>
          have hj : j < rest.length := Nat.lt_of_succ_lt_succ (by simpa using hi)
          have h3 := ih (n + 1) rest hrest j hj
          show (rest.get ⟨j, hj⟩).page_number = _
          rw [h3]
          push_cast
          ring

/-! ## The claims -/

/-- Claim C7: for every readable file, the digest function — which reads
the file in fixed-size 64 KiB chunks and folds them into the hash
accumulator — returns exactly the SHA-256 hex digest of the file's full
byte sequence.  Identical bytes therefore receive the identical digest,
independent of the path or any other filesystem metadata: the second
conjunct exhibits the digest as a function of the bytes alone. -/
theorem c7_chunked_digest_is_whole_file_sha256 (fs : FS) (path : String) (fd : FData)
    (hread : fs.readFile path = some fd) :
    get_sha256sumFS fs path = .ok (sha256hex fd.bytes) ∧
      ∀ (fs2 : FS) (path2 : String) (fd2 : FData),
        fs2.readFile path2 = some fd2 → fd2.bytes = fd.bytes →
          get_sha256sumFS fs2 path2 = get_sha256sumFS fs path := by
  constructor
  · unfold get_sha256sumFS
    rw [hread]
    exact congrArg Except.ok (get_sha256sum_eq_sha256hex fd.bytes)
  · intro fs2 path2 fd2 hread2 hbytes
    unfold get_sha256sumFS
    rw [hread, hread2]
    simp [hbytes]

def wFS7 : FS := ⟨[], [("a.bin", .bin [5]), ("b.bin", .bin [5])]⟩

/-- Witness for C7 at a concrete two-file filesystem with identical
bytes under different names. -/
theorem c7_witness :
    get_sha256sumFS wFS7 "a.bin" = .ok (sha256hex [5]) ∧
      get_sha256sumFS wFS7 "b.bin" = get_sha256sumFS wFS7 "a.bin" :=
  ⟨(c7_chunked_digest_is_whole_file_sha256 wFS7 "a.bin" (.bin [5]) rfl).1,
   (c7_chunked_digest_is_whole_file_sha256 wFS7 "a.bin" (.bin [5]) rfl).2
     wFS7 "b.bin" (.bin [5]) rfl rfl⟩

/-- Claim C9: every document extraction produces is numbered
contiguously from 1, each page's `page_number` equalling its 1-based
position in `pages`. -/
theorem c9_page_numbers_are_positions (doc : FDoc) (path : String) (fs : FS)
    (r : ProcessedPDF) (h : process doc path fs = .ok r) :
    ∀ i (hi : i < r.pages.length), (r.pages.get ⟨i, hi⟩).page_number = (i : ℤ) + 1 := by
  unfold process at h
  rcases hp : processPages doc.pageList 0 with e | pages
  · rw [hp] at h
    cases h
  · rw [hp] at h
    rcases hs : get_sha256sumFS fs path with e | sha
    · rw [hs] at h
      cases h
    · rw [hs] at h
      injection h with h2
      subst h2
      intro i hi
      have h3 := processPages_page_number doc.pageList 0 pages hp i (by simpa using hi)
      simpa using h3

def wDoc9 : FDoc :=
  ⟨[⟨"first", some [], 612, 792, ⟨[1]⟩⟩, ⟨"second", none, 612, 792, ⟨[2]⟩⟩]⟩

def wFS9 : FS := ⟨[], [("w.pdf", .bin [9])]⟩

def wOut9 : ProcessedPDF :=
  ⟨"w.pdf", get_sha256sum [9],
   [⟨(0 : ℤ) + 1, 612, 792, DPI / 72, "first", ⟨[1]⟩, []⟩,
    ⟨(1 : ℤ) + 1, 612, 792, DPI / 72, "second", ⟨[2]⟩, []⟩]⟩

/-- Witness for C9 at a concrete two-page document. -/
theorem c9_witness :
    (wOut9.pages.get ⟨0, by decide⟩).page_number = (0 : ℤ) + 1 ∧
      (wOut9.pages.get ⟨1, by decide⟩).page_number = (1 : ℤ) + 1 :=
  ⟨c9_page_numbers_are_positions wDoc9 "w.pdf" wFS9 wOut9 rfl 0 (by decide),
   c9_page_numbers_are_positions wDoc9 "w.pdf" wFS9 wOut9 rfl 1 (by decide)⟩

/-- Claim C10 (implicit): `load` takes the source file's path, not a
digest; it requires the file at that path to be readable even when a
cache entry exists (a missing file is an I/O `FileNotFoundError`), and
on a readable file it locates the cache entry by the SHA-256 digest of
the file's *current* bytes — so changed bytes silently resolve to a
different entry. -/
theorem c10_load_recomputes_digest_from_path (fs : FS) (path : String) :
    (fs.readFile path = none → load path fs = .error (.fileNotFound path)) ∧
      ∀ b, fs.readFile path = some (.bin b) →
        load path fs = loadEntry (get_sha256sum b) path fs := by
  constructor
  · intro h
    unfold load get_sha256sumFS
    rw [h]
  · intro b h
    unfold load get_sha256sumFS
    rw [h]
    rfl

/-- Witness for C10: a missing source is an I/O error even though the
filesystem is otherwise arbitrary; a present source routes through its
bytes' digest. -/
theorem c10_witness :
    load "gone.pdf" (⟨[], []⟩ : FS) = .error (.fileNotFound "gone.pdf") ∧
      load "a.bin" wFS7 = loadEntry (get_sha256sum [5]) "a.bin" wFS7 :=
  ⟨(c10_load_recomputes_digest_from_path ⟨[], []⟩ "gone.pdf").1 rfl,
   (c10_load_recomputes_digest_from_path wFS7 "a.bin").2 [5] rfl⟩

/-- Claim C3 (amended): processing a zero-page document does NOT fail:
the page loop runs zero times and `process` returns a document with an
empty `pages` sequence.  (The claim as frozen — that a zero-page
document is a `ProcessingError` and a successfully processed document
never has empty `pages` — is refuted by `c3_counterexample`.) -/
theorem c3_zero_pages_succeeds (path : String) (fs : FS) (b : List Nat)
    (hread : fs.readFile path = some (.bin b)) :
    process ⟨[]⟩ path fs = .ok ⟨pathName path, get_sha256sum b, []⟩ := by
  unfold process processPages get_sha256sumFS
  rw [hread]
  rfl

def zeroFS : FS := ⟨[], [("empty.pdf", .bin [37])]⟩

/-- Counterexample to Claim C3 as stated: a zero-page document is
processed successfully — no error of any kind — and the resulting
document's `pages` is empty. -/
theorem c3_counterexample :
    process ⟨[]⟩ "empty.pdf" zeroFS = .ok ⟨"empty.pdf", get_sha256sum [37], []⟩ ∧
      ∀ e, process ⟨[]⟩ "empty.pdf" zeroFS ≠ .error e := by
  have h1 : process ⟨[]⟩ "empty.pdf" zeroFS
      = .ok ⟨"empty.pdf", get_sha256sum [37], []⟩ := rfl
  exact ⟨h1, fun e he => by rw [h1] at he; cases he⟩

/-- Witness for C3's amended theorem at a concrete filesystem. -/
theorem c3_witness :
    process ⟨[]⟩ "doc.pdf" (⟨[], [("doc.pdf", .bin [1, 2])]⟩ : FS)
      = .ok ⟨pathName "doc.pdf", get_sha256sum [1, 2], []⟩ :=
  c3_zero_pages_succeeds "doc.pdf" ⟨[], [("doc.pdf", .bin [1, 2])]⟩ [1, 2] rfl

/-- Claim C4 (amended): the unstructure hook always derives the filename
from the image's own content digest and always writes the image's bytes
there — `pix.save` runs unconditionally, overwriting any pre-existing
file of that name — and touches nothing else.  (The claim as frozen —
write only if absent, pre-existing contents left unchanged — is refuted
by `c4_counterexample`.) -/
theorem c4_write_is_unconditional (digestFn : List Nat → String) (imageDir : String)
    (pix : Pixmap) (fs : FS) :
    (unstructurePixmap digestFn imageDir pix fs).1 = digestFn pix.data ++ ".png" ∧
      (unstructurePixmap digestFn imageDir pix fs).2.dirs = fs.dirs ∧
      ∀ k, (unstructurePixmap digestFn imageDir pix fs).2.readFile k =
        if k = imageDir ++ "/" ++ (digestFn pix.data ++ ".png")
        then some (.bin pix.data) else fs.readFile k := by
  refine ⟨rfl, rfl, fun k => ?_⟩
  by_cases hk : k = imageDir ++ "/" ++ (digestFn pix.data ++ ".png")
  · subst hk
    rw [if_pos rfl]
    exact FS.readFile_writeFile_self fs _ _
  · rw [if_neg hk]
    exact FS.readFile_writeFile_ne fs _ _ _ (Ne.symm hk)

def cexDigest : List Nat → String := fun _ => "d0"

/-- Counterexample to Claim C4 as stated: a file already present under
the derived name (here holding bytes `[9]`) IS rewritten — after the
hook runs it holds the new image's bytes `[7]`, not its previous
contents. -/
theorem c4_counterexample :
    FS.readFile ⟨[], [("assets/d0.png", .bin [9])]⟩ "assets/d0.png" = some (.bin [9]) ∧
      (unstructurePixmap cexDigest "assets" ⟨[7]⟩
          ⟨[], [("assets/d0.png", .bin [9])]⟩).2.readFile "assets/d0.png"
        = some (.bin [7]) ∧
      (FData.bin [7] : FData) ≠ .bin [9] := by
  refine ⟨rfl, ?_, by decide⟩
  decide

/-- Claim C5 (code bug): the flattening loop uses
`line.get("spans")` with no default, so a line dict with no `"spans"`
key yields `None` and iterating it raises `TypeError` — the one
missing-substructure case that errors.  The surrounding cases behave as
the claim says: a non-text block, a block with no `"lines"` key, a line
with an empty spans list, and an empty block list all contribute
nothing. -/
theorem c5_missing_spans_key_raises :
    flattenBlocks [⟨0, some [⟨none⟩]⟩] = .error .typeErrorNoneNotIterable ∧
      flattenBlocks [⟨0, some [⟨some []⟩]⟩] = .ok [] ∧
      flattenBlocks [⟨1, some [⟨none⟩]⟩] = .ok [] ∧
      flattenBlocks [⟨0, none⟩] = .ok [] ∧
      flattenBlocks [] = .ok [] :=
  ⟨rfl, rfl, rfl, rfl, rfl⟩

/-- `loadEntry` in explicit form (pure unfolding). -/
theorem loadEntry_eq (sha path : String) (fs : FS) :
    loadEntry sha path fs =
      if (STORAGE_DIR ++ "/" ++ sha) ∈ fs.dirs then
        match fs.readFile (STORAGE_DIR ++ "/" ++ sha ++ "/" ++ "processed_pdf.json") with
        | none =>
          .error (.fileNotFound (STORAGE_DIR ++ "/" ++ sha ++ "/" ++ "processed_pdf.json"))
        | some (.bin _) =>
          .error (.jsonDecodeError (STORAGE_DIR ++ "/" ++ sha ++ "/" ++ "processed_pdf.json"))
        | some (.record u) => structurePDF (STORAGE_DIR ++ "/" ++ sha) u fs
      else .error (.fileNotFound path) := rfl

/-- Claim C2: with the source file readable, `load` fails with the
cache-miss exception class — the builtin `FileNotFoundError`, the class
the explicit miss `raise` uses — exactly when the spec's
`exists(digest)` (entry directory present AND record file present) is
false.  In particular a never-stored digest is a miss, not a corruption
error: corrupt-entry failures surface as `JSONDecodeError` or a cattrs
`ClassValidationError`, never as `FileNotFoundError`. -/
theorem c2_miss_iff_not_exists (fs : FS) (path : String) (b : List Nat)
    (hread : fs.readFile path = some (.bin b)) :
    (∃ q, load path fs = .error (.fileNotFound q)) ↔
      cacheExistsSpec (get_sha256sum b) fs = false := by
  have hl : load path fs = loadEntry (get_sha256sum b) path fs := by
    unfold load get_sha256sumFS
    rw [hread]
    rfl
  rw [hl, loadEntry_eq]
  unfold cacheExistsSpec
  by_cases hdir : (STORAGE_DIR ++ "/" ++ get_sha256sum b) ∈ fs.dirs
  · rw [if_pos hdir]
    rcases hrec : fs.readFile
        (STORAGE_DIR ++ "/" ++ get_sha256sum b ++ "/" ++ "processed_pdf.json")
      with _ | fd
    · apply iff_of_true
      · exact ⟨_, rfl⟩
      · simp [hrec]
    · cases fd with
      | bin bb =>
        apply iff_of_false
        · rintro ⟨q, hq⟩
          simp at hq
        · simp [hdir, hrec]
      | record u =>
        apply iff_of_false
        · rintro ⟨q, hq⟩
          have hq2 : structurePDF (STORAGE_DIR ++ "/" ++ get_sha256sum b) u fs
              = .error (.fileNotFound q) := hq
          rcases hst : structurePDF (STORAGE_DIR ++ "/" ++ get_sha256sum b) u fs
            with e | dd
          · rw [hst] at hq2
            injection hq2 with h2
            obtain ⟨e0, he0⟩ := structurePDF_error_classValidation _ _ _ _ hst
            subst he0
            simp at h2
          · rw [hst] at hq2
            cases hq2
        · simp [hdir, hrec]
  · rw [if_neg hdir]
    apply iff_of_true
    · exact ⟨path, rfl⟩
    · simp [hdir]

def wFS2 : FS := ⟨[], [("m.pdf", .bin [4])]⟩

/-- Witness for C2 at a concrete filesystem with a readable source and
an empty cache. -/
theorem c2_witness :
    (∃ q, load "m.pdf" wFS2 = .error (.fileNotFound q)) ↔
      cacheExistsSpec (get_sha256sum [4]) wFS2 = false :=
  c2_miss_iff_not_exists wFS2 "m.pdf" [4] rfl

/-- Claim C8: decoding a cache entry whose record references an image
filename with no corresponding file fails with the corruption-signalling
error — the cattrs `ClassValidationError` wrapping the image loader's
failure — which is an error (not a silent partial result) of a class
distinct from the cache-miss `FileNotFoundError`. -/
theorem c8_missing_asset_is_distinct_error (fs : FS) (path : String) (b : List Nat)
    (u : UPDF) (up : UPage)
    (hread : fs.readFile path = some (.bin b))
    (hdir : (STORAGE_DIR ++ "/" ++ get_sha256sum b) ∈ fs.dirs)
    (hrec : fs.readFile (STORAGE_DIR ++ "/" ++ get_sha256sum b ++ "/" ++ "processed_pdf.json")
      = some (.record u))
    (hup : up ∈ u.pages)
    (hmiss : fs.readFile (STORAGE_DIR ++ "/" ++ get_sha256sum b ++ "/" ++ up.page_image)
      = none) :
    (∃ e, load path fs = .error (.classValidation e)) ∧
      ∀ q, load path fs ≠ .error (.fileNotFound q) := by
  have hload : load path fs
      = structurePDF (STORAGE_DIR ++ "/" ++ get_sha256sum b) u fs := by
    have hl : load path fs = loadEntry (get_sha256sum b) path fs := by
      unfold load get_sha256sumFS
      rw [hread]
      rfl
    rw [hl, loadEntry_eq, if_pos hdir, hrec]
  rcases hst : structurePDF (STORAGE_DIR ++ "/" ++ get_sha256sum b) u fs with e | dd
  · obtain ⟨e0, he0⟩ := structurePDF_error_classValidation _ _ _ _ hst
    subst he0
    refine ⟨⟨e0, by rw [hload, hst]⟩, fun q hq => ?_⟩
    rw [hload, hst] at hq
    simp at hq
  · exfalso
    unfold structurePDF at hst
    rcases hm : structurePages (STORAGE_DIR ++ "/" ++ get_sha256sum b) u.pages fs
      with e1 | ps
    · rw [hm] at hst
      cases hst
    · have hsome := structurePages_ok_assets _ u.pages fs ps hm up hup
      rw [hmiss] at hsome
      cases hsome

def wU8 : UPDF := ⟨"x.pdf", "stale", [⟨1, 612, 792, 2, "", "ghost.png", []⟩]⟩

def wFS8 : FS :=
  ⟨[STORAGE_DIR ++ "/" ++ get_sha256sum [4]],
   [(STORAGE_DIR ++ "/" ++ get_sha256sum [4] ++ "/" ++ "processed_pdf.json", .record wU8),
    ("m8.pdf", .bin [4])]⟩

/-- Witness for C8: a concrete cache entry whose record names
`ghost.png`, which does not exist. -/
theorem c8_witness :
    (∃ e, load "m8.pdf" wFS8 = .error (.classValidation e)) ∧
      ∀ q, load "m8.pdf" wFS8 ≠ .error (.fileNotFound q) := by
  have hne : (STORAGE_DIR ++ "/" ++ get_sha256sum [4] ++ "/" ++ "processed_pdf.json")
      ≠ "m8.pdf" :=
    (short_ne_cachePath "m8.pdf" (get_sha256sum [4]) "processed_pdf.json" (by decide)).symm
  have hread : wFS8.readFile "m8.pdf" = some (.bin [4]) := by
    simp only [wFS8, FS.readFile]
    rw [lookupA_cons_ne _ _ _ _ hne, lookupA_cons_self]
  have hmiss : wFS8.readFile
      (STORAGE_DIR ++ "/" ++ get_sha256sum [4] ++ "/" ++ "ghost.png") = none := by
    have h1 : (STORAGE_DIR ++ "/" ++ get_sha256sum [4] ++ "/" ++ "processed_pdf.json")
        ≠ STORAGE_DIR ++ "/" ++ get_sha256sum [4] ++ "/" ++ "ghost.png" := by
      intro h
      have h2 := string_append_left_cancel h
      exact absurd h2 (by decide)
    have h3 : ("m8.pdf" : String)
        ≠ STORAGE_DIR ++ "/" ++ get_sha256sum [4] ++ "/" ++ "ghost.png" :=
      short_ne_cachePath "m8.pdf" (get_sha256sum [4]) "ghost.png" (by decide)
    simp only [wFS8, FS.readFile]
    rw [lookupA_cons_ne _ _ _ _ h1, lookupA_cons_ne _ _ _ _ h3]
    rfl
  have hrec : wFS8.readFile
      (STORAGE_DIR ++ "/" ++ get_sha256sum [4] ++ "/" ++ "processed_pdf.json")
      = some (.record wU8) := by
    simp only [wFS8, FS.readFile]
    exact lookupA_cons_self _ _ _
  exact c8_missing_asset_is_distinct_error wFS8 "m8.pdf" [4] wU8
    ⟨1, 612, 792, 2, "", "ghost.png", []⟩ hread (List.mem_singleton.mpr rfl)
    hrec (List.mem_singleton.mpr rfl) hmiss

/-- The codec round trip, before the integral-dimension assumption: the
document comes back with every field intact except that `width` and
`height` pass through Python's `int()`. -/
theorem structure_unstructure (digestFn : List Nat → String) (imageDir : String)
    (d : ProcessedPDF) (fs : FS) (hinj : DigestInjOn digestFn d.pages) :
    structurePDF imageDir (unstructurePDF digestFn imageDir d fs).1
        (unstructurePDF digestFn imageDir d fs).2
      = .ok ⟨d.filename, d.sha256sum, d.pages.map truncPage⟩ := by
  have h1 : (unstructurePDF digestFn imageDir d fs).1 = uRecord digestFn d := by
    simp [unstructurePDF, uRecord, unstructurePages_fst]
  have hassets : ∀ p ∈ d.pages,
      (unstructurePDF digestFn imageDir d fs).2.readFile (assetKey digestFn imageDir p)
        = some (.bin p.page_image.data) :=
    fun p hp => unstructurePages_readFile digestFn imageDir d.pages fs hinj p hp
  rw [h1]
  unfold structurePDF uRecord
  rw [structurePages_map_toUPage digestFn imageDir d.pages _ hassets]

/-- Claim C1 (amended): decoding the result of encoding `d` — images
written to the asset directory during encoding and read back during
decoding — returns `d` field-for-field, *provided* the image digest is
collision-free on `d`'s images and every page's `width`/`height` is
integral.  (Without the latter, `int()` truncates the int-annotated
dimension fields: `c1_counterexample`.) -/
theorem c1_roundtrip_integral_dims (digestFn : List Nat → String) (imageDir : String)
    (d : ProcessedPDF) (fs : FS) (hinj : DigestInjOn digestFn d.pages)
    (hdims : ∀ p ∈ d.pages,
      ((pyInt p.width : ℤ) : ℚ) = p.width ∧ ((pyInt p.height : ℤ) : ℚ) = p.height) :
    structurePDF imageDir (unstructurePDF digestFn imageDir d fs).1
        (unstructurePDF digestFn imageDir d fs).2 = .ok d := by
  rw [structure_unstructure digestFn imageDir d fs hinj,
    map_truncPage_id d.pages hdims]

def wDigest : List Nat → String := fun _ => "D"

def emptyFS : FS := ⟨[], []⟩

def wDocInt : ProcessedPDF :=
  ⟨"f.pdf", "sha-f",
   [⟨1, 612, 792, 2, "hello", ⟨[7, 8]⟩, [⟨"Title", ⟨10, 10, 100, 30⟩⟩]⟩]⟩

/-- Witness for C1's amended round trip at a concrete one-page document
with integral dimensions. -/
theorem c1_witness :
    structurePDF "assets" (unstructurePDF wDigest "assets" wDocInt emptyFS).1
        (unstructurePDF wDigest "assets" wDocInt emptyFS).2 = .ok wDocInt :=
  c1_roundtrip_integral_dims wDigest "assets" wDocInt emptyFS (by decide) (by decide)

def fracPage : ProcessedPage := ⟨1, (1191 : ℚ) / 2, 792, 2, "", ⟨[7]⟩, []⟩

def fracDoc : ProcessedPDF := ⟨"in.pdf", get_sha256sum [1, 2, 3], [fracPage]⟩

theorem pyInt_frac : pyInt ((1191 : ℚ) / 2) = 595 := by
  unfold pyInt
  rw [if_pos (by norm_num), Int.floor_eq_iff]
  norm_num

/-- The round-tripped copy of `fracDoc` differs from it: its page width
came back as `595`, not `1191/2 = 595.5`. -/
theorem fracDoc_trunc_ne :
    (⟨fracDoc.filename, fracDoc.sha256sum, fracDoc.pages.map truncPage⟩ : ProcessedPDF)
      ≠ fracDoc := by
  intro h
  have h3 := congrArg (fun x => x.pages.map ProcessedPage.width) h
  simp only [fracDoc, fracPage, truncPage, List.map_cons, List.map_nil] at h3
  injection h3 with h4 _
  rw [pyInt_frac] at h4
  norm_num at h4

/-- Counterexample to Claim C1 as stated: for the one-page document with
width `1191/2` (A3 landscape width in points is likewise fractional),
decode∘encode returns a document whose page width is `595`, not equal to
the original. -/
theorem c1_counterexample :
    structurePDF "assets" (unstructurePDF wDigest "assets" fracDoc emptyFS).1
        (unstructurePDF wDigest "assets" fracDoc emptyFS).2
      = .ok ⟨fracDoc.filename, fracDoc.sha256sum, fracDoc.pages.map truncPage⟩ ∧
    (⟨fracDoc.filename, fracDoc.sha256sum, fracDoc.pages.map truncPage⟩ : ProcessedPDF)
      ≠ fracDoc :=
  ⟨structure_unstructure wDigest "assets" fracDoc emptyFS (by decide), fracDoc_trunc_ne⟩

/-- `load` after `store`: what comes back is the stored document with
`width`/`height` truncated by the int-annotated field structuring. -/
theorem load_store_general (digestFn : List Nat → String) (d : ProcessedPDF) (fs : FS)
    (srcPath : String) (b : List Nat)
    (hinj : DigestInjOn digestFn d.pages)
    (hread : fs.readFile srcPath = some (.bin b))
    (hsha : d.sha256sum = get_sha256sum b)
    (hsrc1 : recordKey d ≠ srcPath)
    (hsrc2 : ∀ p ∈ d.pages, assetKey digestFn (entryDir d) p ≠ srcPath) :
    load srcPath (store digestFn d fs)
      = .ok ⟨d.filename, d.sha256sum, d.pages.map truncPage⟩ := by
  have hsrc : (store digestFn d fs).readFile srcPath = some (.bin b) := by
    rw [store_readFile_other digestFn d fs srcPath hsrc1 hsrc2, hread]
  have hl : load srcPath (store digestFn d fs)
      = loadEntry (get_sha256sum b) srcPath (store digestFn d fs) := by
    unfold load get_sha256sumFS
    rw [hsrc]
    rfl
  rw [hl, ← hsha, loadEntry_eq]
  rw [show STORAGE_DIR ++ "/" ++ d.sha256sum = entryDir d from rfl]
  rw [show entryDir d ++ "/" ++ "processed_pdf.json" = recordKey d from rfl]
  rw [if_pos (store_dirs_mem digestFn d fs), store_readFile_record digestFn d fs]
  show structurePDF (entryDir d) (uRecord digestFn d) (store digestFn d fs) = _
  unfold structurePDF uRecord
  rw [structurePages_map_toUPage digestFn (entryDir d) d.pages _
    (fun p hp => store_readFile_asset digestFn d fs hinj p hp)]

/-- Claim C6 (amended): storing `d` twice is filesystem-idempotent — the
second `store` creates no directory, rewrites every asset file with
byte-identical content in place (so identical images share one file and
nothing is duplicated), and overwrites the record with an equal record —
and loading afterwards returns `d`, provided the image digest is
collision-free on `d`'s images, `d`'s dimensions are integral
(otherwise `int()` truncates them back: `c6_counterexample`), `d`'s
digest is that of the source file's bytes, and the source path is not
itself a cache-internal file. -/
theorem c6_double_store_then_load (digestFn : List Nat → String) (d : ProcessedPDF)
    (fs : FS) (srcPath : String) (b : List Nat)
    (hinj : DigestInjOn digestFn d.pages)
    (hdims : ∀ p ∈ d.pages,
      ((pyInt p.width : ℤ) : ℚ) = p.width ∧ ((pyInt p.height : ℤ) : ℚ) = p.height)
    (hread : fs.readFile srcPath = some (.bin b))
    (hsha : d.sha256sum = get_sha256sum b)
    (hsrc1 : recordKey d ≠ srcPath)
    (hsrc2 : ∀ p ∈ d.pages, assetKey digestFn (entryDir d) p ≠ srcPath) :
    store digestFn d (store digestFn d fs) = store digestFn d fs ∧
      load srcPath (store digestFn d (store digestFn d fs)) = .ok d := by
  have hss := store_store digestFn d fs hinj
  refine ⟨hss, ?_⟩
  rw [hss, load_store_general digestFn d fs srcPath b hinj hread hsha hsrc1 hsrc2,
    map_truncPage_id d.pages hdims]

def wBytes6 : List Nat := [1, 2, 3]

def wDoc6 : ProcessedPDF :=
  ⟨"in.pdf", get_sha256sum wBytes6, [⟨1, 612, 792, 2, "txt", ⟨[7]⟩, []⟩]⟩

def wFS6 : FS := ⟨[], [("in.pdf", .bin wBytes6)]⟩

/-- Witness for C6 at a concrete document, source file, and empty
cache. -/
theorem c6_witness :
    store wDigest wDoc6 (store wDigest wDoc6 wFS6) = store wDigest wDoc6 wFS6 ∧
      load "in.pdf" (store wDigest wDoc6 (store wDigest wDoc6 wFS6)) = .ok wDoc6 :=
  c6_double_store_then_load wDigest wDoc6 wFS6 "in.pdf" wBytes6 (by decide) (by decide)
    rfl rfl
    ((short_ne_cachePath "in.pdf" wDoc6.sha256sum "processed_pdf.json" (by decide)).symm)
    (fun p _ => (short_ne_cachePath "in.pdf" wDoc6.sha256sum
      (wDigest p.page_image.data ++ ".png") (by decide)).symm)

/-- Counterexample to Claim C6 as stated: store the fractional-width
document twice, then load — the result is the truncated document, not a
document equal to `d`. -/
theorem c6_counterexample :
    load "in.pdf"
        (store wDigest fracDoc (store wDigest fracDoc (⟨[], [("in.pdf", .bin [1, 2, 3])]⟩ : FS)))
      = .ok ⟨fracDoc.filename, fracDoc.sha256sum, fracDoc.pages.map truncPage⟩ ∧
    (⟨fracDoc.filename, fracDoc.sha256sum, fracDoc.pages.map truncPage⟩ : ProcessedPDF)
      ≠ fracDoc := by
  constructor
  · rw [store_store wDigest fracDoc _ (by decide)]
    exact load_store_general wDigest fracDoc _ "in.pdf" [1, 2, 3] (by decide) rfl rfl
      ((short_ne_cachePath "in.pdf" fracDoc.sha256sum "processed_pdf.json"
        (by decide)).symm)
      (fun p _ => (short_ne_cachePath "in.pdf" fracDoc.sha256sum
        (wDigest p.page_image.data ++ ".png") (by decide)).symm)
  · exact fracDoc_trunc_ne

end Takeoff
